import Mathlib

/-!
Shallow embedding of `src/main.rs` of vscode-cjk-toggle-terminal-fixer.

The program registers a global Ctrl+` hotkey; when it fires and the
foreground window's title identifies VS Code, it posts a synthetic
WM_KEYDOWN/WM_KEYUP pair for VK_OEM_3 to that window.  A worker thread
drains an mpsc channel of `Event`s and drives the tray icon (exit,
auto-launch toggle, icon re-selection on DPI/theme changes).

Modelling decisions:
 * A window is `Option (List Char)`: `none` is the null HWND returned by
   `GetForegroundWindow`; `some title` is a non-null window whose
   `GetWindowTextW` text is `title` (retrieval failure yields the empty
   title, exactly as a zero return from `GetWindowTextW` leaves an empty
   buffer slice).
 * Titles are `List Char`; `str::trim` strips the Unicode White_Space
   set (the same property Rust's `char::is_whitespace` tests), spelled
   out code point by code point in `isUnicodeWhitespace`.
 * Posted window messages are records of (message, wParam, lParam),
   with the numeric values of the WM_/VK_ constants.
 * `f32` scaling factors are modelled as `ℚ`; the icon-distance key
   `(size as f32 - target_size).abs() as i32` is `⌊|size - target|⌋`
   saturated at `i32::MAX` (truncation towards zero of a non-negative
   value is the floor, and Rust float-to-int `as` casts clamp at the
   integer type's bounds; negative saturation and the NaN-to-0 case are
   unreachable from an absolute value).
 * The worker thread's per-iteration interactions with the outside world
   (auto-launch registry, tray menu, `PostThreadMessageW`,
   `get_icon_param`) are an `EnvResponse` oracle attached to each
   received event, and the side effects are recorded in a `WorkerAct`
   trace.
-/

namespace Fixer

/-! ### Windows message constants (numeric values from the Windows SDK) -/

def WM_KEYDOWN : Nat := 0x0100

def WM_KEYUP : Nat := 0x0101

def VK_OEM_3 : Nat := 0xC0

/-- A message posted with `PostMessageA` to the foreground window. -/
structure PostedMsg where
  message : Nat
  wParam : Nat
  lParam : Nat
deriving DecidableEq, Repr

/-- The lParam built at line 192: `1 | 0b10 << 16`. -/
def mockLParam : Nat := 1 ||| (2 <<< 16)

/-! ### The title filter of `mock_key_press` (lines 174-185) -/

/-- The separator `" - "` used by `window_title.rsplit(" - ")`. -/
def sepDash : List Char := [' ', '-', ' ']

/-- The suffix of `s` after the rightmost occurrence of `" - "`, or
`none` when the separator does not occur: the first item that
`rsplit(" - ")` yields, minus the "whole string when no separator"
default (restored by `getD` at the use site). -/
def afterLastSep : List Char → Option (List Char)
  | [] => none
  | c :: cs =>
    match afterLastSep cs with
    | some r => some r
    | none => if sepDash.isPrefixOf (c :: cs) then some ((c :: cs).drop 3) else none

/-- The Unicode White_Space property (PropList.txt), which is exactly
what Rust's `char::is_whitespace` — and hence `str::trim` — tests:
U+0009..U+000D, U+0020, U+0085, U+00A0, U+1680, U+2000..U+200A, U+2028,
U+2029, U+202F, U+205F, U+3000. -/
def isUnicodeWhitespace (c : Char) : Bool :=
  decide ((0x09 ≤ c.toNat ∧ c.toNat ≤ 0x0D) ∨ c.toNat = 0x20 ∨ c.toNat = 0x85 ∨
    c.toNat = 0xA0 ∨ c.toNat = 0x1680 ∨ (0x2000 ≤ c.toNat ∧ c.toNat ≤ 0x200A) ∨
    c.toNat = 0x2028 ∨ c.toNat = 0x2029 ∨ c.toNat = 0x202F ∨ c.toNat = 0x205F ∨
    c.toNat = 0x3000)

/-- Rust `str::trim` on a char list: strip leading and trailing
White_Space code points. -/
def trimChars (s : List Char) : List Char :=
  ((s.dropWhile isUnicodeWhitespace).reverse.dropWhile isUnicodeWhitespace).reverse

def targetLong : List Char := "Visual Studio Code".data

def targetShort : List Char := "VS Code".data

/-- Lines 180-185: `window_title.rsplit(" - ").next().map(str::trim)`
matched against `Some("Visual Studio Code" | "VS Code")`. -/
def isTargetTitle (title : List Char) : Bool :=
  let seg := (afterLastSep title).getD title
  trimChars seg == targetLong || trimChars seg == targetShort

/-- Function `mock_key_press` (lines 167-197): result is the list of messages
posted to the foreground window, in posting order. -/
def mock_key_press : Option (List Char) → List PostedMsg
  | none => []
  | some title =>
    if isTargetTitle title then
      [⟨WM_KEYDOWN, VK_OEM_3, mockLParam⟩, ⟨WM_KEYUP, VK_OEM_3, mockLParam⟩]
    else []







/-! ### Icon parameters and selection (lines 199-263) -/

/-- Struct `IconParam` (lines 199-203); `f32` modelled as `ℚ`. -/
structure IconParam where
  light_mode : Bool
  scaling_factor : ℚ
deriving DecidableEq, Repr

/-- The ten baked-in `.ico` buffers of lines 225-235, one constructor per
distinct asset. -/
inductive IconAsset
  | light16 | light24 | light32 | light48 | light256
  | dark16 | dark24 | dark32 | dark48 | dark256
deriving DecidableEq, Repr

/-- The light candidate array of line 251. -/
def lightIcons : List (ℤ × IconAsset) :=
  [(16, .light16), (24, .light24), (32, .light32), (48, .light48), (256, .light256)]

/-- The dark candidate array of line 253. -/
def darkIcons : List (ℤ × IconAsset) :=
  [(16, .dark16), (24, .dark24), (32, .dark32), (48, .dark48), (256, .dark256)]

/-- The saturation bound of Rust's `as i32` cast on a non-negative float. -/
def I32_MAX : ℤ := 2 ^ 31 - 1

/-- The key `(size as f32 - target_size).abs() as i32` (line 258):
truncation towards zero of the non-negative absolute difference,
saturating at `i32::MAX` as Rust float-to-int `as` casts do (the value is
an absolute value, so negative saturation and NaN cannot arise). -/
def absTrunc (q : ℚ) : ℤ := min (|q|.num / (|q|.den : ℤ)) I32_MAX

/-- Rust's `Iterator::min_by_key`, which keeps the first of equally
minimal elements: a fold that replaces the running best only on a
strictly smaller key. -/
def minByFirst {α β : Type} [LinearOrder β] (key : α → β) (x : α) (l : List α) : α :=
  l.foldl (fun best y => if key y < key best then y else best) x

/-- Function `select_icon` (lines 219-263, non-test branch): choose the theme's
candidate array, then `min_by_key` on the truncated absolute distance to
`scaling_factor * 16`, and return that asset (`unwrap` is total here
because both arrays are non-empty; the `[]` branch is unreachable). -/
def select_icon (p : IconParam) : IconAsset :=
  let icons := if p.light_mode then lightIcons else darkIcons
  let target : ℚ := p.scaling_factor * 16
  match icons with
  | [] => IconAsset.dark256
  | x :: rest => (minByFirst (fun sd => absTrunc ((sd.1 : ℚ) - target)) x rest).2

/-- Function `get_icon_param` (lines 205-216): the registry read of
`SystemUsesLightTheme` is the `Option Nat` input (`none` = the key or the
value could not be read), the desktop DPI scale the `ℚ` input. -/
def get_icon_param (systemUsesLightTheme : Option Nat) (desktopDpi : ℚ) : IconParam :=
  { light_mode := systemUsesLightTheme == some 0
    scaling_factor := desktopDpi }

def iconSize : IconAsset → ℤ
  | .light16 | .dark16 => 16
  | .light24 | .dark24 => 24
  | .light32 | .dark32 => 32
  | .light48 | .dark48 => 48
  | .light256 | .dark256 => 256

def iconIsLight : IconAsset → Bool
  | .light16 | .light24 | .light32 | .light48 | .light256 => true
  | .dark16 | .dark24 | .dark32 | .dark48 | .dark256 => false

/-- The declared ten-asset set. -/
def allIconAssets : List IconAsset :=
  [.light16, .light24, .light32, .light48, .light256,
   .dark16, .dark24, .dark32, .dark48, .dark256]

/-- The nominal sizes in declared order. -/
def iconSizes : List ℤ := [16, 24, 32, 48, 256]

/-- Modelled from the spec's words (§4.4 multi-resolution policy), for
comparison with `select_icon`: "pick the resolution whose nominal pixel
size minimizes absolute distance to `scaling_factor * 16`; ties broken by
selection order (first minimal match found)". -/
def spec_nearest_size (sf : ℚ) : ℤ :=
  minByFirst (fun s : ℤ => |(s : ℚ) - sf * 16|) 16 [24, 32, 48, 256]

/-! ### Below the saturation bound, the truncated key induces the same
first-minimum as the true distance.  The point: any two of the nominal
sizes differ by an even integer, so their distances to a common target
can share a floor only by being equal. -/

lemma absTrunc_eq (q : ℚ) : absTrunc q = min ⌊|q|⌋ I32_MAX := by
  rw [Rat.floor_def]; rfl

lemma absTrunc_of_lt (q : ℚ) (h : ⌊|q|⌋ < I32_MAX) : absTrunc q = ⌊|q|⌋ := by
  rw [absTrunc_eq]; exact min_eq_left h.le

lemma absTrunc_lt_max_iff (q : ℚ) : absTrunc q < I32_MAX ↔ ⌊|q|⌋ < I32_MAX := by
  rw [absTrunc_eq]
  constructor
  · intro h
    rcases min_lt_iff.mp h with h | h
    · exact h
    · exact absurd h (lt_irrefl _)
  · intro h
    rw [min_eq_left h.le]; exact h

lemma floor_eq_of_add_eq_two_mul (x y : ℚ) (m : ℤ) (hsum : x + y = 2 * (m : ℚ))
    (h : ⌊x⌋ = ⌊y⌋) : x = y := by
  have hx1 : (⌊x⌋ : ℚ) ≤ x := Int.floor_le x
  have hx2 : x < ⌊x⌋ + 1 := Int.lt_floor_add_one x
  have hy1 : (⌊x⌋ : ℚ) ≤ y := by rw [h]; exact Int.floor_le y
  have hy2 : y < ⌊x⌋ + 1 := by rw [h]; exact Int.lt_floor_add_one y
  have hm : m = ⌊x⌋ := by
    have h1 : ((⌊x⌋ : ℚ)) ≤ (m : ℚ) := by linarith
    have h2 : (m : ℚ) < (⌊x⌋ : ℚ) + 1 := by linarith
    have h1' : ⌊x⌋ ≤ m := by exact_mod_cast h1
    have h2' : m < ⌊x⌋ + 1 := by exact_mod_cast h2
    omega
  subst hm
  linarith

lemma floor_abs_inj (t : ℚ) (a b : ℤ) (hne : a ≠ b) (hpar : (b - a) % 2 = 0)
    (h : ⌊|(a : ℚ) - t|⌋ = ⌊|(b : ℚ) - t|⌋) : |(a : ℚ) - t| = |(b : ℚ) - t| := by
  obtain ⟨n, hn⟩ : ∃ n : ℤ, b - a = 2 * n := ⟨(b - a) / 2, by omega⟩
  have hn0 : n ≠ 0 := by omega
  have hxy : ((b : ℚ) - t) - ((a : ℚ) - t) = 2 * (n : ℚ) := by
    have := congrArg (fun z : ℤ => (z : ℚ)) hn
    push_cast at this
    linarith
  rcases abs_cases ((a : ℚ) - t) with ⟨hx1, hx2⟩ | ⟨hx1, hx2⟩ <;>
    rcases abs_cases ((b : ℚ) - t) with ⟨hy1, hy2⟩ | ⟨hy1, hy2⟩ <;>
    rw [hx1, hy1] at h ⊢
  · -- both distances on the same side: floors differ by the even gap
    exfalso
    have hb : (b : ℚ) - t = ((a : ℚ) - t) + ((2 * n : ℤ) : ℚ) := by push_cast; linarith
    rw [hb, Int.floor_add_int] at h
    omega
  · -- a - t ≥ 0 ≥ b - t: the two distances sum to an even integer
    exact floor_eq_of_add_eq_two_mul _ _ (-n) (by push_cast; linarith) h
  · -- a - t < 0 ≤ b - t: symmetric
    exact floor_eq_of_add_eq_two_mul _ _ n (by linarith) h
  · exfalso
    have hb : -((b : ℚ) - t) = (-((a : ℚ) - t)) + ((-(2 * n) : ℤ) : ℚ) := by
      push_cast; linarith
    rw [hb, Int.floor_add_int] at h
    omega

lemma floor_abs_lt_iff (t : ℚ) (a b : ℤ) (hne : a ≠ b) (hpar : (b - a) % 2 = 0) :
    (⌊|(a : ℚ) - t|⌋ < ⌊|(b : ℚ) - t|⌋ ↔ |(a : ℚ) - t| < |(b : ℚ) - t|) := by
  constructor
  · intro h
    have h1 : ⌊|(a : ℚ) - t|⌋ + 1 ≤ ⌊|(b : ℚ) - t|⌋ := h
    have h1' : ((⌊|(a : ℚ) - t|⌋ : ℚ)) + 1 ≤ ((⌊|(b : ℚ) - t|⌋ : ℚ)) := by exact_mod_cast h1
    have h2 := Int.lt_floor_add_one |(a : ℚ) - t|
    have h3 := Int.floor_le |(b : ℚ) - t|
    linarith
  · intro h
    rcases lt_or_eq_of_le (Int.floor_le_floor h.le) with h' | h'
    · exact h'
    · exact absurd (floor_abs_inj t a b hne hpar h') (ne_of_lt h)

lemma minByFirst_cons {α β : Type} [LinearOrder β] (key : α → β) (x y : α) (ys : List α) :
    minByFirst key x (y :: ys) = minByFirst key (if key y < key x then y else x) ys := rfl

lemma minByFirst_mem {α β : Type} [LinearOrder β] (key : α → β) (l : List α) :
    ∀ x, minByFirst key x l ∈ x :: l := by
  induction l with
  | nil => intro x; simp [minByFirst]
  | cons y ys ih =>
    intro x
    rw [minByFirst_cons]
    rcases List.mem_cons.mp (ih (if key y < key x then y else x)) with h | h
    · rw [h]
      by_cases hk : key y < key x <;> simp [hk]
    · exact List.mem_cons_of_mem _ (List.mem_cons_of_mem _ h)

lemma minByFirst_fst {α γ β : Type} [LinearOrder β] (key : α → β)
    (x : α × γ) (l : List (α × γ)) :
    (minByFirst (fun p => key p.1) x l).1 = minByFirst key x.1 (l.map Prod.fst) := by
  induction l generalizing x with
  | nil => rfl
  | cons y ys ih =>
    rw [minByFirst_cons, List.map_cons, minByFirst_cons]
    by_cases h : key y.1 < key x.1
    · simpa [h] using ih y
    · simpa [h] using ih x

lemma minByFirst_congr {α β γ : Type} [LinearOrder β] [LinearOrder γ]
    (k1 : α → β) (k2 : α → γ) (S : List α)
    (hS : ∀ a ∈ S, ∀ b ∈ S, (k1 a < k1 b ↔ k2 a < k2 b)) :
    ∀ (l : List α), (∀ y ∈ l, y ∈ S) → ∀ x ∈ S, minByFirst k1 x l = minByFirst k2 x l := by
  intro l
  induction l with
  | nil => intro _ x _; rfl
  | cons y ys ih =>
    intro hl x hx
    have hy : y ∈ S := hl y (List.mem_cons_self _ _)
    rw [minByFirst_cons, minByFirst_cons]
    have hiff := hS y hy x hx
    by_cases h : k1 y < k1 x
    · rw [if_pos h, if_pos (hiff.mp h)]
      exact ih (fun z hz => hl z (List.mem_cons_of_mem _ hz)) y hy
    · rw [if_neg h, if_neg (fun h2 => h (hiff.mpr h2))]
      exact ih (fun z hz => hl z (List.mem_cons_of_mem _ hz)) x hx

lemma codeKey_specKey_iff (t : ℚ) (hns : ∀ s ∈ iconSizes, ⌊|(s : ℚ) - t|⌋ < I32_MAX) :
    ∀ a ∈ iconSizes, ∀ b ∈ iconSizes,
      (absTrunc ((a : ℚ) - t) < absTrunc ((b : ℚ) - t) ↔ |(a : ℚ) - t| < |(b : ℚ) - t|) := by
  have key : ∀ a b : ℤ, a ∈ iconSizes → b ∈ iconSizes → a ≠ b → (b - a) % 2 = 0 →
      (absTrunc ((a : ℚ) - t) < absTrunc ((b : ℚ) - t) ↔ |(a : ℚ) - t| < |(b : ℚ) - t|) := by
    intro a b ha hb h1 h2
    rw [absTrunc_of_lt _ (hns a ha), absTrunc_of_lt _ (hns b hb)]
    exact floor_abs_lt_iff t a b h1 h2
  intro a ha b hb
  have ha2 := ha
  have hb2 := hb
  simp only [iconSizes, List.mem_cons, List.not_mem_nil, or_false] at ha2 hb2
  rcases ha2 with rfl | rfl | rfl | rfl | rfl <;> rcases hb2 with rfl | rfl | rfl | rfl | rfl <;>
    first | exact key _ _ ha hb (by decide) (by decide) | simp

lemma codeNearest_eq_spec (sf : ℚ)
    (hns : ∀ s ∈ iconSizes, ⌊|(s : ℚ) - sf * 16|⌋ < I32_MAX) :
    minByFirst (fun s : ℤ => absTrunc ((s : ℚ) - sf * 16)) 16 [24, 32, 48, 256]
      = spec_nearest_size sf := by
  unfold spec_nearest_size
  exact minByFirst_congr _ _ iconSizes (codeKey_specKey_iff (sf * 16) hns)
    [24, 32, 48, 256] (by decide) 16 (by decide)

lemma lightIcons_assets : ∀ sd ∈ lightIcons,
    sd.2 ∈ allIconAssets ∧ iconIsLight sd.2 = true ∧ iconSize sd.2 = sd.1 := by decide

lemma darkIcons_assets : ∀ sd ∈ darkIcons,
    sd.2 ∈ allIconAssets ∧ iconIsLight sd.2 = false ∧ iconSize sd.2 = sd.1 := by decide

lemma select_icon_min (p : IconParam) :
    select_icon p ∈ allIconAssets ∧ iconIsLight (select_icon p) = p.light_mode ∧
      ((∀ s ∈ iconSizes, ⌊|(s : ℚ) - p.scaling_factor * 16|⌋ < I32_MAX) →
        iconSize (select_icon p) = spec_nearest_size p.scaling_factor) := by
  cases hl : p.light_mode
  all_goals {
    first
      | (have hfacts := darkIcons_assets
         have hsel : select_icon p =
            (minByFirst (fun sd : ℤ × IconAsset => absTrunc ((sd.1 : ℚ) - p.scaling_factor * 16))
              (16, IconAsset.dark16)
              [(24, .dark24), (32, .dark32), (48, .dark48), (256, .dark256)]).2 := by
           simp [select_icon, hl, darkIcons]
         have hmem : (minByFirst (fun sd : ℤ × IconAsset => absTrunc ((sd.1 : ℚ) - p.scaling_factor * 16))
              (16, IconAsset.dark16)
              [(24, .dark24), (32, .dark32), (48, .dark48), (256, .dark256)]) ∈ darkIcons :=
           minByFirst_mem _ _ _)
      | (have hfacts := lightIcons_assets
         have hsel : select_icon p =
            (minByFirst (fun sd : ℤ × IconAsset => absTrunc ((sd.1 : ℚ) - p.scaling_factor * 16))
              (16, IconAsset.light16)
              [(24, .light24), (32, .light32), (48, .light48), (256, .light256)]).2 := by
           simp [select_icon, hl, lightIcons]
         have hmem : (minByFirst (fun sd : ℤ × IconAsset => absTrunc ((sd.1 : ℚ) - p.scaling_factor * 16))
              (16, IconAsset.light16)
              [(24, .light24), (32, .light32), (48, .light48), (256, .light256)]) ∈ lightIcons :=
           minByFirst_mem _ _ _)
    obtain ⟨hA, hL, hS⟩ := hfacts _ hmem
    refine ⟨hsel ▸ hA, by rw [hsel, hL], ?_⟩
    intro hns
    rw [hsel, hS, minByFirst_fst (fun s : ℤ => absTrunc ((s : ℚ) - p.scaling_factor * 16))]
    simpa using codeNearest_eq_spec p.scaling_factor hns
  }

/-! ### The worker thread of `logged_main` (lines 104-136)

The spawned closure drains `rx` in a loop.  Each received event is paired
with an `EnvResponse`, the oracle of what the outside world answers during
that iteration: the fresh `is_enabled()` registry read, whether the
`enable`/`disable` mutation and the `set_menu_item_checkable` call
succeed, whether `PostThreadMessageW` succeeds, and what `get_icon_param`
reads at that moment.  Side effects are recorded as a `WorkerAct` trace. -/

/-- The `Event` enum (lines 26-32). -/
inductive Event
  | exit
  | autoLaunch
  | systemDpiChanged
  | systemColorChanged
deriving DecidableEq, Repr

/-- External answers observed during one loop iteration. -/
structure EnvResponse where
  /-- result of `al.is_enabled()`; `none` models `Err`. -/
  alRead : Option Bool
  /-- whether the `al.enable()` / `al.disable()` call returns `Ok`. -/
  alMutateOk : Bool
  /-- whether `tray.set_menu_item_checkable(..)` returns `Ok`. -/
  menuSetOk : Bool
  /-- whether `PostThreadMessageW(tid, WM_QUIT, ..)` returns `Ok`. -/
  postQuitOk : Bool
  /-- what `get_icon_param()` returns at this instant. -/
  iconParamNow : IconParam
deriving DecidableEq, Repr

/-- Observable side effects of the worker loop, in program order. -/
inductive WorkerAct
  | destroyTray
  | postQuitMsg (ok : Bool)
  | processExit (code : Int)
  | readAutoLaunchState
  | requestALDisable
  | requestALEnable
  | setMenuChecked (b : Bool)
  | setTrayIcon (i : IconAsset)
deriving DecidableEq, Repr

/-- Mutable state captured by the worker closure: the last applied
`icon_param` (line 85) and the displayed checked state of the
"Auto Launch" menu item. -/
structure WorkerState where
  iconParam : IconParam
  menuChecked : Bool
deriving DecidableEq, Repr

/-- One iteration of the `match evt` at lines 106-135.  Returns the new
state, the side-effect trace of the iteration, and whether the loop
continues (`false` on `break` or `process::exit`).  `hasAL` is whether
`auto_launch` (line 70) is `Some`. -/
def stepEv (hasAL : Bool) (s : WorkerState) (e : Event) (env : EnvResponse) :
    WorkerState × List WorkerAct × Bool :=
  match e with
  | .exit =>
    -- lines 107-113: drop(tray), then PostThreadMessageW; on failure process::exit(-1)
    (s,
     .destroyTray :: .postQuitMsg env.postQuitOk ::
       (if env.postQuitOk then [] else [.processExit (-1)]),
     false)
  | .autoLaunch =>
    -- lines 114-127
    if hasAL then
      match env.alRead with
      | none => (s, [.readAutoLaunchState], true)
      | some true =>
        if env.alMutateOk then
          (if env.menuSetOk then { s with menuChecked := false } else s,
           [.readAutoLaunchState, .requestALDisable, .setMenuChecked false], true)
        else (s, [.readAutoLaunchState, .requestALDisable], true)
      | some false =>
        if env.alMutateOk then
          (if env.menuSetOk then { s with menuChecked := true } else s,
           [.readAutoLaunchState, .requestALEnable, .setMenuChecked true], true)
        else (s, [.readAutoLaunchState, .requestALEnable], true)
    else (s, [], true)
  | .systemDpiChanged | .systemColorChanged =>
    -- lines 128-134
    if s.iconParam ≠ env.iconParamNow then
      ({ s with iconParam := env.iconParamNow },
       [.setTrayIcon (select_icon env.iconParamNow)], true)
    else (s, [], true)

/-- The consuming loop at lines 104-136 over a queue of delivered events
(each with its iteration's environment): drains in order until an
iteration reports it does not continue; events left in the queue at that
point are never processed. -/
def runWorker (hasAL : Bool) : List (Event × EnvResponse) → WorkerState →
    WorkerState × List WorkerAct
  | [], s => (s, [])
  | (e, env) :: rest, s =>
    let r := stepEv hasAL s e env
    if r.2.2 then
      let r2 := runWorker hasAL rest r.1
      (r2.1, r.2.1 ++ r2.2)
    else (r.1, r.2.1)

lemma stepEv_continue (hasAL : Bool) (s : WorkerState) (e : Event) (env : EnvResponse)
    (h : e ≠ Event.exit) : (stepEv hasAL s e env).2.2 = true := by
  cases e with
  | exit => exact absurd rfl h
  | autoLaunch =>
    by_cases hA : hasAL <;> rcases hR : env.alRead with _ | b
    · simp [stepEv, hA, hR]
    · cases b <;> by_cases hM : env.alMutateOk <;> by_cases hN : env.menuSetOk <;>
        simp [stepEv, hA, hR, hM, hN]
    · simp [stepEv, hA, hR]
    · simp [stepEv, hA, hR]
  | systemDpiChanged =>
    by_cases hI : s.iconParam = env.iconParamNow <;> simp [stepEv, hI]
  | systemColorChanged =>
    by_cases hI : s.iconParam = env.iconParamNow <;> simp [stepEv, hI]

/-! ### Claim theorems -/

/-- C1: for every invocation of `mock_key_press` on a non-null foreground
window whose title passes the target filter, exactly two messages are
posted in order — WM_KEYDOWN then WM_KEYUP — both with wParam VK_OEM_3
and the fixed lParam `1 | 0b10 << 16`: repeat count (bits 0-15) is 1, the
scan-code field (bits 16-23) is the fixed value 2, and the extended bit
(bit 24) is 0. -/
theorem C1_forwarder_posts_keydown_keyup (title : List Char)
    (h : isTargetTitle title = true) :
    mock_key_press (some title) =
      [⟨WM_KEYDOWN, VK_OEM_3, mockLParam⟩, ⟨WM_KEYUP, VK_OEM_3, mockLParam⟩] ∧
    mockLParam % 2 ^ 16 = 1 ∧ (mockLParam >>> 16) % 2 ^ 8 = 2 ∧
    (mockLParam >>> 24) % 2 = 0 := by
  refine ⟨?_, by decide, by decide, by decide⟩
  simp [mock_key_press, h]

theorem C1_forwarder_posts_keydown_keyup_witness :
    isTargetTitle "foo.ts - VS Code".data = true ∧
    mock_key_press (some "foo.ts - VS Code".data) =
      [⟨WM_KEYDOWN, VK_OEM_3, mockLParam⟩, ⟨WM_KEYUP, VK_OEM_3, mockLParam⟩] :=
  ⟨by decide, (C1_forwarder_posts_keydown_keyup "foo.ts - VS Code".data (by decide)).1⟩

/-- C2: the filter fails closed — a null foreground window posts nothing,
and a non-null window whose trailing segment after the last `" - "`,
trimmed, equals neither "Visual Studio Code" nor "VS Code" posts nothing;
in particular the title "Untitled — Notepad" is rejected. -/
theorem C2_filter_fails_closed :
    mock_key_press none = [] ∧
    (∀ title : List Char,
      trimChars ((afterLastSep title).getD title) ≠ targetLong →
      trimChars ((afterLastSep title).getD title) ≠ targetShort →
      mock_key_press (some title) = []) ∧
    isTargetTitle "Untitled — Notepad".data = false := by
  refine ⟨rfl, ?_, by decide⟩
  intro title h1 h2
  have hf : isTargetTitle title = false := by
    simp [isTargetTitle, h1, h2]
  simp [mock_key_press, hf]

theorem C2_filter_fails_closed_witness :
    trimChars ((afterLastSep "Untitled — Notepad".data).getD "Untitled — Notepad".data)
        ≠ targetLong ∧
    trimChars ((afterLastSep "Untitled — Notepad".data).getD "Untitled — Notepad".data)
        ≠ targetShort ∧
    mock_key_press (some "Untitled — Notepad".data) = [] :=
  ⟨by decide, by decide,
    C2_filter_fails_closed.2.1 "Untitled — Notepad".data (by decide) (by decide)⟩

/-- C3 counterexample: the claim's example title "main.rs — Visual Studio
Code" uses an em-dash, so it contains no `" - "` separator; the code
compares the whole trimmed title, which is not a target name, and posts
nothing — the claim asserts this title is accepted and forwarded. -/
theorem C3_em_dash_title_rejected :
    isTargetTitle "main.rs — Visual Studio Code".data = false ∧
    mock_key_press (some "main.rs — Visual Studio Code".data) = [] := by
  constructor
  · decide
  · simp [mock_key_press]
    decide

/-- C3 (amended): for every title whose segment after the last ASCII
`" - "` separator, trimmed, equals the exact target application name, the
filter accepts and the keystroke pair is forwarded; in particular the
title "main.rs - Visual Studio Code" (hyphen-minus separator) is
accepted. -/
theorem C3_target_suffix_accepted (title : List Char)
    (h : trimChars ((afterLastSep title).getD title) = targetLong ∨
         trimChars ((afterLastSep title).getD title) = targetShort) :
    mock_key_press (some title) =
      [⟨WM_KEYDOWN, VK_OEM_3, mockLParam⟩, ⟨WM_KEYUP, VK_OEM_3, mockLParam⟩] ∧
    mock_key_press (some "main.rs - Visual Studio Code".data) =
      [⟨WM_KEYDOWN, VK_OEM_3, mockLParam⟩, ⟨WM_KEYUP, VK_OEM_3, mockLParam⟩] := by
  have ht : isTargetTitle title = true := by
    rcases h with h | h <;> simp [isTargetTitle, h]
  constructor
  · simp [mock_key_press, ht]
  · decide

theorem C3_target_suffix_accepted_witness :
    trimChars ((afterLastSep "main.rs - Visual Studio Code".data).getD
        "main.rs - Visual Studio Code".data) = targetLong ∧
    mock_key_press (some "main.rs - Visual Studio Code".data) =
      [⟨WM_KEYDOWN, VK_OEM_3, mockLParam⟩, ⟨WM_KEYUP, VK_OEM_3, mockLParam⟩] :=
  ⟨by decide,
    (C3_target_suffix_accepted "main.rs - Visual Studio Code".data (Or.inl (by decide))).1⟩

/-- C10: when the title contains no `" - "` separator, the filter
compares the entire trimmed title against the target names; in
particular the exact titles "VS Code" and "Visual Studio Code", also
with surrounding whitespace, are forwarding targets. -/
theorem C10_whole_title_without_separator (title : List Char)
    (h : afterLastSep title = none) :
    (isTargetTitle title = true ↔
      trimChars title = targetLong ∨ trimChars title = targetShort) ∧
    mock_key_press (some " VS Code ".data) =
      [⟨WM_KEYDOWN, VK_OEM_3, mockLParam⟩, ⟨WM_KEYUP, VK_OEM_3, mockLParam⟩] ∧
    mock_key_press (some "Visual Studio Code".data) =
      [⟨WM_KEYDOWN, VK_OEM_3, mockLParam⟩, ⟨WM_KEYUP, VK_OEM_3, mockLParam⟩] := by
  refine ⟨?_, by decide, by decide⟩
  simp [isTargetTitle, h]

theorem C10_whole_title_without_separator_witness :
    afterLastSep " VS Code ".data = none ∧
    (isTargetTitle " VS Code ".data = true ↔
      trimChars " VS Code ".data = targetLong ∨ trimChars " VS Code ".data = targetShort) :=
  ⟨by decide, (C10_whole_title_without_separator " VS Code ".data (by decide)).1⟩

lemma floors_small (sf : ℚ) (hsf : |sf| ≤ 2 ^ 20) :
    ∀ s ∈ iconSizes, ⌊|(s : ℚ) - sf * 16|⌋ < I32_MAX := by
  intro s hs
  have hsabs : |(s : ℚ)| ≤ 256 := by
    fin_cases hs <;> norm_num
  have h16 : |sf * 16| ≤ 2 ^ 24 := by
    rw [abs_mul, abs_of_nonneg (by norm_num : (0 : ℚ) ≤ 16)]
    calc |sf| * 16 ≤ 2 ^ 20 * 16 := mul_le_mul_of_nonneg_right hsf (by norm_num)
      _ = 2 ^ 24 := by norm_num
  have hb : |(s : ℚ) - sf * 16| ≤ 2 ^ 25 := by
    calc |(s : ℚ) - sf * 16| = |(s : ℚ) + -(sf * 16)| := by rw [sub_eq_add_neg]
      _ ≤ |(s : ℚ)| + |-(sf * 16)| := abs_add _ _
      _ = |(s : ℚ)| + |sf * 16| := by rw [abs_neg]
      _ ≤ 2 ^ 25 := by linarith
  have h3 : ((⌊|(s : ℚ) - sf * 16|⌋ : ℚ)) ≤ 2 ^ 25 := le_trans (Int.floor_le _) hb
  have h4 : ⌊|(s : ℚ) - sf * 16|⌋ ≤ 2 ^ 25 := by exact_mod_cast h3
  have h5 : (2 ^ 25 : ℤ) < I32_MAX := by norm_num [I32_MAX]
  exact lt_of_le_of_lt h4 h5

/-- C7 counterexample: at `scaling_factor = 2^27 + 16` (an exactly
representable f32) the target is `2^31 + 256`; every candidate's
truncated distance saturates at `i32::MAX`, all five keys tie, and
`min_by_key` returns the first candidate — the 16px asset — although
256 is strictly nearer, so the claimed distance-minimization is false of
the program at this `IconParameters` value. -/
theorem C7_saturating_cast_counterexample :
    select_icon { light_mode := false, scaling_factor := 2 ^ 27 + 16 } = IconAsset.dark16 ∧
    |((256 : ℤ) : ℚ) - (2 ^ 27 + 16) * 16| < |((16 : ℤ) : ℚ) - (2 ^ 27 + 16) * 16| := by
  constructor
  · simp only [select_icon, darkIcons, lightIcons]
    norm_num [minByFirst, List.foldl, absTrunc_eq, I32_MAX, min_def]
  · norm_num

/-- C7 (amended): `select_icon` always returns a member of the declared
ten-asset set, from the light set iff `light_mode`; whenever no
candidate's truncated distance saturates at `i32::MAX` — true for every
realistic parameter, e.g. any `|scaling_factor| ≤ 2^20` — the chosen
asset's nominal size is the one among 16/24/32/48/256 that minimizes the
absolute distance to `scaling_factor * 16`, ties resolved to the first
candidate in declared order (`spec_nearest_size`); in particular scaling
1 yields size 16, 3/2 yields 24 and 3 yields 48 (for either theme).  At
saturating scaling factors all keys tie and the first candidate is
returned instead (see the counterexample). -/
theorem C7_icon_selection_policy (p : IconParam) :
    select_icon p ∈ allIconAssets ∧
    iconIsLight (select_icon p) = p.light_mode ∧
    ((∀ s ∈ iconSizes, absTrunc ((s : ℚ) - p.scaling_factor * 16) < I32_MAX) →
      iconSize (select_icon p) = spec_nearest_size p.scaling_factor) ∧
    iconSize (select_icon { light_mode := p.light_mode, scaling_factor := 1 }) = 16 ∧
    iconSize (select_icon { light_mode := p.light_mode, scaling_factor := 3 / 2 }) = 24 ∧
    iconSize (select_icon { light_mode := p.light_mode, scaling_factor := 3 }) = 48 := by
  obtain ⟨h1, h2, h3⟩ := select_icon_min p
  refine ⟨h1, h2, ?_, ?_, ?_, ?_⟩
  · intro hns
    exact h3 (fun s hs => (absTrunc_lt_max_iff _).mp (hns s hs))
  · rw [(select_icon_min { light_mode := p.light_mode, scaling_factor := 1 }).2.2
        (floors_small 1 (by norm_num))]
    show spec_nearest_size 1 = 16
    simp only [spec_nearest_size, minByFirst, List.foldl]
    norm_num
  · rw [(select_icon_min { light_mode := p.light_mode, scaling_factor := 3 / 2 }).2.2
        (floors_small (3 / 2)
          (by rw [abs_of_nonneg (by norm_num : (0 : ℚ) ≤ 3 / 2)]; norm_num))]
    show spec_nearest_size (3 / 2) = 24
    simp only [spec_nearest_size, minByFirst, List.foldl]
    norm_num
  · rw [(select_icon_min { light_mode := p.light_mode, scaling_factor := 3 }).2.2
        (floors_small 3 (by norm_num))]
    show spec_nearest_size 3 = 48
    simp only [spec_nearest_size, minByFirst, List.foldl]
    norm_num

theorem C7_icon_selection_policy_witness :
    iconSize (select_icon { light_mode := false, scaling_factor := 1 }) =
      spec_nearest_size 1 ∧ spec_nearest_size 1 = 16 :=
  ⟨(C7_icon_selection_policy { light_mode := false, scaling_factor := 1 }).2.2.1
      (fun s hs => (absTrunc_lt_max_iff _).mpr (floors_small 1 (by norm_num) s hs)),
    by simp only [spec_nearest_size, minByFirst, List.foldl]; norm_num⟩

/-- C9: `get_icon_param` sets `light_mode` iff the registry read of
`SystemUsesLightTheme` succeeded with the value 0; on a failed read or
any non-zero value `light_mode` is false, and `select_icon` then draws
from the dark asset set. -/
theorem C9_light_mode_iff_registry_zero (reg : Option Nat) (dpi : ℚ) :
    ((get_icon_param reg dpi).light_mode = true ↔ reg = some 0) ∧
    (reg ≠ some 0 →
      (get_icon_param reg dpi).light_mode = false ∧
      iconIsLight (select_icon (get_icon_param reg dpi)) = false) := by
  constructor
  · simp [get_icon_param]
  · intro h
    have hlm : (get_icon_param reg dpi).light_mode = false := by
      simp [get_icon_param, h]
    exact ⟨hlm, by rw [(select_icon_min _).2.1, hlm]⟩

theorem C9_light_mode_iff_registry_zero_witness :
    (some 1 : Option Nat) ≠ some 0 ∧
    (get_icon_param (some 1) 1).light_mode = false ∧
    iconIsLight (select_icon (get_icon_param (some 1) 1)) = false :=
  ⟨by decide,
    (C9_light_mode_iff_registry_zero (some 1) 1).2 (by decide)⟩

/-- C4: after the worker processes an `Exit` event, it drains no further
event: the run over any queue with an `Exit` at some position (no earlier
`Exit`) is identical to the run over the queue truncated right after that
`Exit` — the events queued behind it are never processed, so the
destroyed tray handle is never used afterwards. -/
theorem C4_nothing_processed_after_exit (hasAL : Bool)
    (pre : List (Event × EnvResponse)) (env : EnvResponse)
    (post : List (Event × EnvResponse)) (s : WorkerState)
    (h : ∀ p ∈ pre, p.1 ≠ Event.exit) :
    runWorker hasAL (pre ++ (Event.exit, env) :: post) s =
      runWorker hasAL (pre ++ [(Event.exit, env)]) s := by
  induction pre generalizing s with
  | nil => simp [runWorker, stepEv]
  | cons p ps ih =>
    obtain ⟨e0, env0⟩ := p
    have he : e0 ≠ Event.exit := h _ (List.mem_cons_self _ _)
    have hcont := stepEv_continue hasAL s e0 env0 he
    simp only [List.cons_append, runWorker, hcont, if_true, List.append_eq]
    rw [ih _ (fun q hq => h q (List.mem_cons_of_mem _ hq))]

theorem C4_nothing_processed_after_exit_witness :
    (∀ p ∈ ([(Event.autoLaunch, EnvResponse.mk none false false false ⟨false, 1⟩)] :
        List (Event × EnvResponse)), p.1 ≠ Event.exit) ∧
    runWorker true
        ([(Event.autoLaunch, EnvResponse.mk none false false false ⟨false, 1⟩)] ++
          (Event.exit, EnvResponse.mk none false false true ⟨false, 1⟩) ::
          [(Event.systemDpiChanged, EnvResponse.mk none false false false ⟨true, 2⟩)])
        ⟨⟨false, 1⟩, false⟩ =
      runWorker true
        ([(Event.autoLaunch, EnvResponse.mk none false false false ⟨false, 1⟩)] ++
          [(Event.exit, EnvResponse.mk none false false true ⟨false, 1⟩)])
        ⟨⟨false, 1⟩, false⟩ :=
  ⟨by decide,
    C4_nothing_processed_after_exit true
      [(Event.autoLaunch, EnvResponse.mk none false false false ⟨false, 1⟩)]
      (EnvResponse.mk none false false true ⟨false, 1⟩)
      [(Event.systemDpiChanged, EnvResponse.mk none false false false ⟨true, 2⟩)]
      ⟨⟨false, 1⟩, false⟩ (by decide)⟩

/-- C5: processing `Exit` destroys the tray handle strictly before the
quit sentinel is posted (the trace starts destroy-then-post, never the
reverse); when posting the sentinel fails the process is terminated with
the non-zero code -1; and `processExit` is reachable from exactly this
one place — any `processExit c` in any iteration's trace forces an
`Exit` event, a failed post, and `c = -1`. -/
theorem C5_exit_destroys_tray_before_quit (hasAL : Bool) (s : WorkerState)
    (env : EnvResponse) :
    (∃ rest, (stepEv hasAL s Event.exit env).2.1 =
      WorkerAct.destroyTray :: WorkerAct.postQuitMsg env.postQuitOk :: rest) ∧
    (env.postQuitOk = false →
      (stepEv hasAL s Event.exit env).2.1 =
        [WorkerAct.destroyTray, WorkerAct.postQuitMsg false,
         WorkerAct.processExit (-1)]) ∧
    (env.postQuitOk = true →
      ∀ c : Int, WorkerAct.processExit c ∉ (stepEv hasAL s Event.exit env).2.1) ∧
    (∀ (e : Event) (env' : EnvResponse) (c : Int),
      WorkerAct.processExit c ∈ (stepEv hasAL s e env').2.1 →
      e = Event.exit ∧ env'.postQuitOk = false ∧ c = -1) := by
  refine ⟨?_, ?_, ?_, ?_⟩
  · exact ⟨_, rfl⟩
  · intro hq; simp [stepEv, hq]
  · intro hq c; simp [stepEv, hq]
  · intro e env' c hmem
    cases e with
    | exit =>
      cases hq : env'.postQuitOk <;> simp [stepEv, hq] at hmem
      exact ⟨rfl, rfl, hmem⟩
    | autoLaunch =>
      by_cases hA : hasAL
      · rcases hR : env'.alRead with _ | b
        · simp [stepEv, hA, hR] at hmem
        · cases b <;> by_cases hM : env'.alMutateOk <;> simp [stepEv, hA, hR, hM] at hmem
      · simp [stepEv, hA] at hmem
    | systemDpiChanged =>
      by_cases hI : s.iconParam = env'.iconParamNow <;> simp [stepEv, hI] at hmem
    | systemColorChanged =>
      by_cases hI : s.iconParam = env'.iconParamNow <;> simp [stepEv, hI] at hmem

theorem C5_exit_destroys_tray_before_quit_witness :
    (stepEv true ⟨⟨false, 1⟩, false⟩
        Event.exit (EnvResponse.mk none false false false ⟨false, 1⟩)).2.1 =
      [WorkerAct.destroyTray, WorkerAct.postQuitMsg false,
       WorkerAct.processExit (-1)] :=
  (C5_exit_destroys_tray_before_quit true ⟨⟨false, 1⟩, false⟩
    (EnvResponse.mk none false false false ⟨false, 1⟩)).2.1 rfl

/-- C6: every `ToggleAutoLaunch` iteration (with the auto-launch adapter
present) begins with a fresh read of the external state — the trace
always starts with `readAutoLaunchState`, and the branch taken is decided
by this iteration's read, never a cached one; a read of enabled issues a
disable request (and the unchecked menu update is requested only if the
disable succeeded), a read of disabled issues an enable request (checked
update only on success), and a failed read or failed mutation leaves the
worker state, including the menu checked state, unchanged. -/
theorem C6_toggle_auto_launch_fresh_read (s : WorkerState) (env : EnvResponse) :
    ((stepEv true s Event.autoLaunch env).2.1.head? =
      some WorkerAct.readAutoLaunchState) ∧
    (env.alRead = none →
      stepEv true s Event.autoLaunch env = (s, [WorkerAct.readAutoLaunchState], true)) ∧
    (env.alRead = some true →
      WorkerAct.requestALDisable ∈ (stepEv true s Event.autoLaunch env).2.1 ∧
      WorkerAct.requestALEnable ∉ (stepEv true s Event.autoLaunch env).2.1 ∧
      (env.alMutateOk = true → env.menuSetOk = true →
        (stepEv true s Event.autoLaunch env).1.menuChecked = false) ∧
      (env.alMutateOk = false → (stepEv true s Event.autoLaunch env).1 = s)) ∧
    (env.alRead = some false →
      WorkerAct.requestALEnable ∈ (stepEv true s Event.autoLaunch env).2.1 ∧
      WorkerAct.requestALDisable ∉ (stepEv true s Event.autoLaunch env).2.1 ∧
      (env.alMutateOk = true → env.menuSetOk = true →
        (stepEv true s Event.autoLaunch env).1.menuChecked = true) ∧
      (env.alMutateOk = false → (stepEv true s Event.autoLaunch env).1 = s)) ∧
    (WorkerAct.setMenuChecked false ∈ (stepEv true s Event.autoLaunch env).2.1 ↔
      env.alRead = some true ∧ env.alMutateOk = true) ∧
    (WorkerAct.setMenuChecked true ∈ (stepEv true s Event.autoLaunch env).2.1 ↔
      env.alRead = some false ∧ env.alMutateOk = true) := by
  rcases hR : env.alRead with _ | b
  · simp [stepEv, hR]
  · cases b <;> by_cases hM : env.alMutateOk <;> by_cases hN : env.menuSetOk <;>
      simp [stepEv, hR, hM, hN]

theorem C6_toggle_auto_launch_fresh_read_witness :
    ((EnvResponse.mk (some true) true true false ⟨false, 1⟩).alRead = some true) ∧
    (stepEv true ⟨⟨false, 1⟩, true⟩ Event.autoLaunch
        (EnvResponse.mk (some true) true true false ⟨false, 1⟩)).2.1.head? =
      some WorkerAct.readAutoLaunchState ∧
    (stepEv true ⟨⟨false, 1⟩, true⟩ Event.autoLaunch
        (EnvResponse.mk (some true) true true false ⟨false, 1⟩)).1.menuChecked = false :=
  ⟨rfl,
    (C6_toggle_auto_launch_fresh_read ⟨⟨false, 1⟩, true⟩
      (EnvResponse.mk (some true) true true false ⟨false, 1⟩)).1,
    ((C6_toggle_auto_launch_fresh_read ⟨⟨false, 1⟩, true⟩
      (EnvResponse.mk (some true) true true false ⟨false, 1⟩)).2.2.1 rfl).2.2.1 rfl rfl⟩

/-- C8: on `SystemDpiChanged` or `SystemColorChanged` the worker
recomputes the icon parameters and compares them by equality with the
last applied value: when equal, the state (including the stored
parameters) is unchanged and no icon update happens; when different, the
stored parameters become the fresh value and exactly one tray-icon update
with the newly selected icon is issued. -/
theorem C8_icon_update_only_on_change (hasAL : Bool) (s : WorkerState)
    (env : EnvResponse) (e : Event)
    (h : e = Event.systemDpiChanged ∨ e = Event.systemColorChanged) :
    (env.iconParamNow = s.iconParam →
      stepEv hasAL s e env = (s, [], true)) ∧
    (env.iconParamNow ≠ s.iconParam →
      (stepEv hasAL s e env).1.iconParam = env.iconParamNow ∧
      (stepEv hasAL s e env).2.1 =
        [WorkerAct.setTrayIcon (select_icon env.iconParamNow)]) := by
  rcases h with rfl | rfl <;> constructor <;> intro hI
  · simp [stepEv, hI]
  · simp [stepEv, Ne.symm hI]
  · simp [stepEv, hI]
  · simp [stepEv, Ne.symm hI]

theorem C8_icon_update_only_on_change_witness :
    stepEv true ⟨⟨false, 1⟩, false⟩ Event.systemDpiChanged
        (EnvResponse.mk none false false false ⟨false, 1⟩) =
      (⟨⟨false, 1⟩, false⟩, [], true) :=
  (C8_icon_update_only_on_change true ⟨⟨false, 1⟩, false⟩
    (EnvResponse.mk none false false false ⟨false, 1⟩)
    Event.systemDpiChanged (Or.inl rfl)).1 rfl

end Fixer
